import Mathlib

/-!
Shallow embedding of the Raydium CLMM command-line client
(`client/src/main.rs`): the address-derivation layer (`load_cfg`), the
tick-array routing layer (`load_cur_and_next_five_tick_array` and
`load_cur_and_next_five_tick_array_keys`) and the account codec they use.

Machine bytes are `Nat` values below 256, a `Pubkey` is its list of 32
bytes, and Rust's `u16`/`i32` big-endian encodings are written out
explicitly.  Functions of the repository that live outside the staged
sources (the on-chain bitmap-search methods of `PoolState`, the anchor
account deserializer and the Solana PDA derivation) are modelled from the
specification; each such definition says so in its doc comment.  A Rust
`unwrap` on a failing value is a panic: the routing functions, whose Rust
return types carry no error channel, are embedded with an `Outcome` type
whose `panicked` constructor records the abort and the error it carried.
-/

/-- A byte string: each element is one byte (a `Nat`, read modulo 256 where
it matters). -/
abbrev Bytes := List Nat

/-- A Solana public key, as its byte representation (32 bytes in the real
system; the embedding keeps the list unconstrained, every claim holds for
all lengths). -/
abbrev Pubkey := Bytes

/-- Rust's `Ord` on `Pubkey` compares the underlying byte arrays
lexicographically; `bytesLt a b` is `a < b` in that order. -/
def bytesLt : Bytes → Bytes → Bool
  | [], [] => false
  | [], _ :: _ => true
  | _ :: _, [] => false
  | a :: as, b :: bs => if a < b then true else if b < a then false else bytesLt as bs

/-- The bytes of a string seed (`as_bytes()` on the source's seed
constants; the constants are ASCII so the char code is the byte). -/
def strBytes (s : String) : Bytes := s.data.map Char.toNat

/-- `raydium_amm_v3::states::AMM_CONFIG_SEED`. -/
def AMM_CONFIG_SEED : Bytes := strBytes "amm_config"

/-- `raydium_amm_v3::states::POOL_SEED`. -/
def POOL_SEED : Bytes := strBytes "pool"

/-- `raydium_amm_v3::states::POOL_TICK_ARRAY_BITMAP_SEED`. -/
def POOL_TICK_ARRAY_BITMAP_SEED : Bytes := strBytes "pool_tick_array_bitmap_extension"

/-- `raydium_amm_v3::states::TICK_ARRAY_SEED`. -/
def TICK_ARRAY_SEED : Bytes := strBytes "tick_array"

/-- `u16::to_be_bytes`: two big-endian bytes. -/
def u16_to_be_bytes (n : Nat) : Bytes := [n / 256 % 256, n % 256]

/-- `i32::to_be_bytes`: four big-endian bytes of the two's-complement
representation. -/
def i32_to_be_bytes (x : Int) : Bytes :=
  let v := (x % (2 ^ 32 : Int)).toNat
  [v / 2 ^ 24 % 256, v / 2 ^ 16 % 256, v / 2 ^ 8 % 256, v % 256]

/-- Modelled from the spec: `Pubkey::find_program_address` (the external
address resolver `derive(program_id, seeds) -> (address, bump)`) is not in
the staged sources.  The spec requires only that the derivation be a pure
deterministic function of the program identity and the ordered seed list,
with distinct seed sequences giving distinct addresses; it is modelled as
an injective length-prefixed encoding of (program identity, seed list),
with a constant bump. -/
def find_program_address (seeds : List Bytes) (program_id : Pubkey) : Pubkey × Nat :=
  (program_id.length :: program_id ++ seeds.flatMap (fun s => s.length :: s), 255)

/-- The fields of `ClientConfig` that the embedded operations read.  The
source struct also carries `http_url`, `ws_url`, `payer_path`,
`admin_path` (opaque strings, kept) and `slippage` (an `f64` no embedded
operation reads; omitted as floating point). -/
structure ClientConfig where
  http_url : String
  ws_url : String
  payer_path : String
  admin_path : String
  raydium_v3_program : Pubkey
  amm_config_key : Pubkey
  mint0 : Option Pubkey
  mint1 : Option Pubkey
  pool_id_account : Option Pubkey
  tickarray_bitmap_extension : Option Pubkey
  amm_config_index : Nat
deriving DecidableEq, Repr

/-- The pure core of `load_cfg` (lines 98-167 of `client/src/main.rs`),
after the out-of-scope INI parsing: the caller passes the already-parsed
string fields, program id, config index, and the optional mints (`none`
when the config string was empty).  The body mirrors the source: derive
the amm config key; if both mints are present, swap them when
`mint0 > mint1` and derive the pool address from the ordered pair; derive
the bitmap-extension address from the pool address when it exists. -/
def load_cfg (http_url ws_url payer_path admin_path : String)
    (raydium_v3_program : Pubkey) (amm_config_index : Nat)
    (mint0_in mint1_in : Option Pubkey) : ClientConfig :=
  let amm_config_key :=
    (find_program_address [AMM_CONFIG_SEED, u16_to_be_bytes amm_config_index]
      raydium_v3_program).1
  let state :=
    match mint0_in, mint1_in with
    | some a, some b =>
      let m0 := if bytesLt b a then b else a
      let m1 := if bytesLt b a then a else b
      (some m0, some m1,
        some (find_program_address [POOL_SEED, amm_config_key, m0, m1] raydium_v3_program).1)
    | _, _ => (mint0_in, mint1_in, none)
  let tickarray_bitmap_extension :=
    state.2.2.map fun p =>
      (find_program_address [POOL_TICK_ARRAY_BITMAP_SEED, p] raydium_v3_program).1
  { http_url := http_url
    ws_url := ws_url
    payer_path := payer_path
    admin_path := admin_path
    raydium_v3_program := raydium_v3_program
    amm_config_key := amm_config_key
    mint0 := state.1
    mint1 := state.2.1
    pool_id_account := state.2.2
    tickarray_bitmap_extension := tickarray_bitmap_extension
    amm_config_index := amm_config_index }

/-! ## Order lemmas for the byte comparison -/

theorem bytesLt_asymm : ∀ a b : Bytes, bytesLt a b = true → bytesLt b a = false := by
  intro a
  induction a with
  | nil => intro b h; cases b <;> simp [bytesLt] at h ⊢
  | cons x xs ih =>
    intro b h
    cases b with
    | nil => simp [bytesLt] at h
    | cons y ys =>
      simp only [bytesLt] at h ⊢
      by_cases hxy : x < y
      · have hyx : ¬ y < x := Nat.lt_asymm hxy
        simp [hxy, hyx]
      · by_cases hyx : y < x
        · simp [hxy, hyx] at h
        · simp [hxy, hyx] at h ⊢
          exact ih ys h

theorem bytesLt_total_eq : ∀ a b : Bytes,
    bytesLt a b = false → bytesLt b a = false → a = b := by
  intro a
  induction a with
  | nil =>
    intro b h1 h2
    cases b with
    | nil => rfl
    | cons y ys => simp [bytesLt] at h1
  | cons x xs ih =>
    intro b h1 h2
    cases b with
    | nil => simp [bytesLt] at h2
    | cons y ys =>
      simp only [bytesLt] at h1 h2
      by_cases hxy : x < y
      · simp [hxy] at h1
      · by_cases hyx : y < x
        · simp [hxy, hyx] at h2
        · simp [hxy, hyx] at h1 h2
          have hx : x = y := Nat.le_antisymm (Nat.le_of_not_lt hyx) (Nat.le_of_not_lt hxy)
          rw [hx, ih ys h1 h2]

theorem bytesLt_irrefl (a : Bytes) : bytesLt a a = false := by
  induction a with
  | nil => rfl
  | cons x xs ih => simp [bytesLt, ih]

/-! ## Pool state, bitmaps and the tick-array search (spec-modelled) -/

/-- `TICK_ARRAY_SIZE`: the protocol constant number of ticks per tick
array (spec: `array_size = 60`). -/
def TICK_ARRAY_SIZE : Nat := 60

/-- Modelled from the spec: the fields of the on-chain `PoolState` the
routing layer reads (the full account type lives in the `raydium_amm_v3`
program crate, outside the staged sources).  The inline bitmap is
modelled extensionally, as the list of tick-array start indices it marks
initialized. -/
structure PoolState where
  tick_current : Int
  tick_spacing : Nat
  tick_array_bitmap : List Int
deriving DecidableEq, Repr

/-- Modelled from the spec: the auxiliary bitmap extending initialization
tracking beyond the inline bitmap's range, again as the list of start
indices it marks initialized. -/
structure TickArrayBitmapExtension where
  positive_tick_array_bitmap : List Int
  negative_tick_array_bitmap : List Int
deriving DecidableEq, Repr

/-- All start indices either bitmap marks initialized.  The spec consults
the inline bitmap first and the extension second; since the two track
disjoint tick ranges, the nearest initialized index in a direction over
the union is what that two-step search finds, so the model searches the
union. -/
def initializedStarts (pool : PoolState) (ext : TickArrayBitmapExtension) : List Int :=
  pool.tick_array_bitmap ++ ext.positive_tick_array_bitmap ++ ext.negative_tick_array_bitmap

/-- `TickArrayState::get_array_start_index`: the start index of the tick
array containing `tick` — `tick` rounded down (toward negative infinity)
to a multiple of `tick_spacing * TICK_ARRAY_SIZE`. -/
def get_array_start_index (tick : Int) (tick_spacing : Nat) : Int :=
  let n : Int := (tick_spacing * TICK_ARRAY_SIZE : Nat)
  Int.fdiv tick n * n

/-- The greatest element of `l` strictly below `cur`, if any. -/
def maxBelow (cur : Int) : List Int → Option Int
  | [] => none
  | s :: rest =>
    if s < cur then
      match maxBelow cur rest with
      | none => some s
      | some m => some (max s m)
    else maxBelow cur rest

/-- The least element of `l` strictly above `cur`, if any. -/
def minAbove (cur : Int) : List Int → Option Int
  | [] => none
  | s :: rest =>
    if cur < s then
      match minAbove cur rest with
      | none => some s
      | some m => some (min s m)
    else minAbove cur rest

/-- Modelled from the spec:
`PoolState::next_initialized_tick_array_start_index` (not in the staged
sources) finds the next initialized tick-array start index strictly
further in the trade direction from `start`: strictly below it when
`zero_for_one` (price moving down), strictly above it otherwise; `none`
when no such index exists. -/
def next_initialized_tick_array_start_index (pool : PoolState)
    (ext : TickArrayBitmapExtension) (start : Int) (zero_for_one : Bool) : Option Int :=
  if zero_for_one then maxBelow start (initializedStarts pool ext)
  else minAbove start (initializedStarts pool ext)

/-- The error kinds with which the embedded routing operations abort.
`noInitializedTickArray` is the spec's `NoInitializedTickArrayError`
(the program's `InsufficientLiquidityForDirection`). -/
inductive RouterError where
  | noInitializedTickArray
  | missingPoolId
  | missingAccount
  | unknownDiscriminator
  | truncatedData
deriving DecidableEq, Repr

/-- Modelled from the spec:
`PoolState::get_first_initialized_tick_array` (not in the staged sources)
locates the first initialized tick-array start index for a swap: the
start index of the array containing the current tick when that array is
initialized (the returned flag is `true`), otherwise the next initialized
start index in the trade direction (flag `false`); it fails with
`NoInitializedTickArrayError` when neither bitmap has one. -/
def get_first_initialized_tick_array (pool : PoolState)
    (ext : TickArrayBitmapExtension) (zero_for_one : Bool) :
    Except RouterError (Bool × Int) :=
  let cur_start := get_array_start_index pool.tick_current pool.tick_spacing
  if (initializedStarts pool ext).contains cur_start then
    .ok (true, cur_start)
  else
    match next_initialized_tick_array_start_index pool ext cur_start zero_for_one with
    | some s => .ok (false, s)
    | none => .error .noInitializedTickArray

/-! ## The routing operations of `client/src/main.rs` -/

/-- The result of a Rust function with no error channel in its return
type: `panicked e` records that the function aborted in an `unwrap`, and
the error the unwrapped value carried. -/
inductive Outcome (α : Type) where
  | ok (value : α)
  | panicked (err : RouterError)
deriving DecidableEq, Repr

/-- Modelled from the spec: the codec's knowledge of one account type —
its fixed discriminator tag and the byte length of its fixed layout.  The
concrete tag and length of `TickArrayState` live in the program crate,
outside the staged sources, so the embedding is parametric in them. -/
structure AccountLayout where
  discriminator : Bytes
  fixedSize : Nat
deriving DecidableEq, Repr

/-- Modelled from the spec: `deserialize_anchor_account::<T>` (in the
unstaged `instructions/utils` module) is the codec contract
`decode<T>(raw_bytes) -> T | DecodeError`: fail with
`UnknownDiscriminatorError` when the leading tag is not `T`'s, with
`TruncatedDataError` when the remaining bytes are shorter than `T`'s
fixed layout, and otherwise return the decoded record — modelled as the
fixed-layout payload bytes. -/
def deserialize_anchor_account (layout : AccountLayout) (raw : Bytes) :
    Except RouterError Bytes :=
  if raw.take layout.discriminator.length = layout.discriminator then
    if (raw.drop layout.discriminator.length).length < layout.fixedSize then
      .error .truncatedData
    else
      .ok ((raw.drop layout.discriminator.length).take layout.fixedSize)
  else
    .error .unknownDiscriminator

/-- The fetch-and-decode tail both routing functions share (source lines
229-238 and 290-299): `get_multiple_accounts` over the collected keys —
modelled by the account map `fetch`, `none` standing for an absent
account — then `deserialize_anchor_account` on each response, unwrapping
both (a missing account or a decode failure panics). -/
def decodeAll (fetch : Pubkey → Option Bytes) (layout : AccountLayout) :
    List Pubkey → Except RouterError (List Bytes)
  | [] => .ok []
  | k :: ks =>
    match fetch k with
    | none => .error .missingAccount
    | some raw =>
      match deserialize_anchor_account layout raw with
      | .error e => .error e
      | .ok body =>
        match decodeAll fetch layout ks with
        | .error e => .error e
        | .ok rest => .ok (body :: rest)

/-- The `tick_array` PDA pushed by both routing loops:
`derive(program, ["tick_array", pool_id, big_endian(start_index)])`. -/
def tick_array_address (program : Pubkey) (pool_id : Pubkey) (start_index : Int) : Pubkey :=
  (find_program_address [TICK_ARRAY_SEED, pool_id, i32_to_be_bytes start_index] program).1

/-- The `while max_array_size != 0` loop both routing functions run
(source lines 203-228 and 264-289), as a fuel recursion on
`max_array_size` collecting the start indices it visits: step from the
current start index to the next initialized one in the trade direction,
stopping early when none exists. -/
def collectNextStartIndices (pool : PoolState) (ext : TickArrayBitmapExtension)
    (cur : Int) (zero_for_one : Bool) : Nat → List Int
  | 0 => []
  | n + 1 =>
    match next_initialized_tick_array_start_index pool ext cur zero_for_one with
    | none => []
    | some nxt => nxt :: collectNextStartIndices pool ext nxt zero_for_one n

/-- The ordered start-index sequence a routing call walks: the first
initialized start index (source lines 188-190, unwrapped), then up to 5
more from the loop.  Both routing functions derive their key list by
mapping `tick_array_address` over exactly this sequence. -/
def routeStartIndices (pool : PoolState) (ext : TickArrayBitmapExtension)
    (zero_for_one : Bool) : Except RouterError (List Int) :=
  match get_first_initialized_tick_array pool ext zero_for_one with
  | .error e => .error e
  | .ok (_, first) => .ok (first :: collectNextStartIndices pool ext first zero_for_one 5)

/-- `load_cur_and_next_five_tick_array` (source lines 181-240): walk the
start indices, derive each `tick_array` PDA (unwrapping the pool id),
fetch all keys in one batched read and decode each response, returning
the decoded tick-array states.  Every `unwrap` of a failing value is a
panic (`Outcome.panicked`): the Rust return type `VecDeque<TickArrayState>`
has no error channel. -/
def load_cur_and_next_five_tick_array (fetch : Pubkey → Option Bytes)
    (layout : AccountLayout) (pool_config : ClientConfig) (pool_state : PoolState)
    (tickarray_bitmap_extension : TickArrayBitmapExtension) (zero_for_one : Bool) :
    Outcome (List Bytes) :=
  match routeStartIndices pool_state tickarray_bitmap_extension zero_for_one with
  | .error e => .panicked e
  | .ok starts =>
    match pool_config.pool_id_account with
    | none => .panicked .missingPoolId
    | some pool_id =>
      let tick_array_keys :=
        starts.map (tick_array_address pool_config.raydium_v3_program pool_id)
      match decodeAll fetch layout tick_array_keys with
      | .error e => .panicked e
      | .ok tick_arrays => .ok tick_arrays

/-- `load_cur_and_next_five_tick_array_keys` (source lines 242-301): the
same walk, derivations, batched fetch and per-response decode — the
source duplicates the body — but returning the derived key list instead
of the decoded states (the decoded states are computed and discarded, so
their failures still panic). -/
def load_cur_and_next_five_tick_array_keys (fetch : Pubkey → Option Bytes)
    (layout : AccountLayout) (pool_config : ClientConfig) (pool_state : PoolState)
    (tickarray_bitmap_extension : TickArrayBitmapExtension) (zero_for_one : Bool) :
    Outcome (List Pubkey) :=
  match routeStartIndices pool_state tickarray_bitmap_extension zero_for_one with
  | .error e => .panicked e
  | .ok starts =>
    match pool_config.pool_id_account with
    | none => .panicked .missingPoolId
    | some pool_id =>
      let tick_array_keys :=
        starts.map (tick_array_address pool_config.raydium_v3_program pool_id)
      match decodeAll fetch layout tick_array_keys with
      | .error e => .panicked e
      | .ok _ => .ok tick_array_keys

/-! ## Helper lemmas about the search and the routing loop -/

theorem maxBelow_lt {cur : Int} : ∀ {l : List Int} {s : Int},
    maxBelow cur l = some s → s < cur := by
  intro l
  induction l with
  | nil => intro s h; simp [maxBelow] at h
  | cons x rest ih =>
    intro s h
    simp only [maxBelow] at h
    split at h
    · rename_i hx
      cases hrec : maxBelow cur rest with
      | none => rw [hrec] at h; cases h; exact hx
      | some m =>
        rw [hrec] at h
        cases h
        exact max_lt hx (ih hrec)
    · exact ih h

theorem minAbove_gt {cur : Int} : ∀ {l : List Int} {s : Int},
    minAbove cur l = some s → cur < s := by
  intro l
  induction l with
  | nil => intro s h; simp [minAbove] at h
  | cons x rest ih =>
    intro s h
    simp only [minAbove] at h
    split at h
    · rename_i hx
      cases hrec : minAbove cur rest with
      | none => rw [hrec] at h; cases h; exact hx
      | some m =>
        rw [hrec] at h
        cases h
        exact lt_min hx (ih hrec)
    · exact ih h

/-- Each step of the loop moves strictly in the trade direction. -/
theorem next_start_index_strict {pool : PoolState} {ext : TickArrayBitmapExtension}
    {start nxt : Int} {zero_for_one : Bool}
    (h : next_initialized_tick_array_start_index pool ext start zero_for_one = some nxt) :
    if zero_for_one then nxt < start else start < nxt := by
  unfold next_initialized_tick_array_start_index at h
  cases zero_for_one with
  | true => simpa using maxBelow_lt (by simpa using h)
  | false => simpa using minAbove_gt (by simpa using h)

theorem collectNextStartIndices_length_le (pool : PoolState)
    (ext : TickArrayBitmapExtension) (zero_for_one : Bool) :
    ∀ (n : Nat) (cur : Int),
      (collectNextStartIndices pool ext cur zero_for_one n).length ≤ n := by
  intro n
  induction n with
  | zero => intro cur; simp [collectNextStartIndices]
  | succ k ih =>
    intro cur
    simp only [collectNextStartIndices]
    cases h : next_initialized_tick_array_start_index pool ext cur zero_for_one with
    | none => simp
    | some nxt => simpa using ih nxt

/-- The start indices visited by the loop form a strict chain in the trade
direction, starting from the index the loop entered with. -/
theorem collectNextStartIndices_chain (pool : PoolState)
    (ext : TickArrayBitmapExtension) (zero_for_one : Bool) :
    ∀ (n : Nat) (cur : Int),
      List.Chain (fun a b => if zero_for_one then b < a else a < b) cur
        (collectNextStartIndices pool ext cur zero_for_one n) := by
  intro n
  induction n with
  | zero => intro cur; simp [collectNextStartIndices]
  | succ k ih =>
    intro cur
    simp only [collectNextStartIndices]
    cases h : next_initialized_tick_array_start_index pool ext cur zero_for_one with
    | none => simp
    | some nxt =>
      refine List.Chain.cons ?_ (ih nxt)
      exact next_start_index_strict h

theorem decodeAll_length {fetch : Pubkey → Option Bytes} {layout : AccountLayout} :
    ∀ {keys : List Pubkey} {arrs : List Bytes},
      decodeAll fetch layout keys = .ok arrs → arrs.length = keys.length := by
  intro keys
  induction keys with
  | nil => intro arrs h; cases h; rfl
  | cons k ks ih =>
    intro arrs h
    simp only [decodeAll] at h
    cases hf : fetch k with
    | none => simp only [hf] at h; cases h
    | some raw =>
      simp only [hf] at h
      cases hd : deserialize_anchor_account layout raw with
      | error e => simp only [hd] at h; cases h
      | ok body =>
        simp only [hd] at h
        cases hrec : decodeAll fetch layout ks with
        | error e => simp only [hrec] at h; cases h
        | ok rest =>
          simp only [hrec] at h
          cases h
          simp [ih hrec]

/-- A successful keys-variant call returns exactly the `tick_array` PDAs
of the walked start-index sequence, in order. -/
theorem load_keys_eq_map {fetch : Pubkey → Option Bytes} {layout : AccountLayout}
    {cfg : ClientConfig} {pool : PoolState} {ext : TickArrayBitmapExtension}
    {zero_for_one : Bool} {keys : List Pubkey}
    (h : load_cur_and_next_five_tick_array_keys fetch layout cfg pool ext zero_for_one =
      .ok keys) :
    ∃ starts pool_id,
      routeStartIndices pool ext zero_for_one = .ok starts ∧
      cfg.pool_id_account = some pool_id ∧
      keys = starts.map (tick_array_address cfg.raydium_v3_program pool_id) := by
  unfold load_cur_and_next_five_tick_array_keys at h
  cases hr : routeStartIndices pool ext zero_for_one with
  | error e => rw [hr] at h; cases h
  | ok starts =>
    rw [hr] at h
    cases hp : cfg.pool_id_account with
    | none => rw [hp] at h; cases h
    | some pool_id =>
      rw [hp] at h
      cases hd : decodeAll fetch layout
          (starts.map (tick_array_address cfg.raydium_v3_program pool_id)) with
      | error e => simp only [hd] at h; cases h
      | ok arrs =>
        simp only [hd] at h
        cases h
        exact ⟨starts, pool_id, rfl, rfl, rfl⟩

/-- A successful start-index walk is the first index followed by at most
five loop steps. -/
theorem routeStartIndices_ok {pool : PoolState} {ext : TickArrayBitmapExtension}
    {zero_for_one : Bool} {starts : List Int}
    (h : routeStartIndices pool ext zero_for_one = .ok starts) :
    ∃ flag first,
      get_first_initialized_tick_array pool ext zero_for_one = .ok (flag, first) ∧
      starts = first :: collectNextStartIndices pool ext first zero_for_one 5 := by
  unfold routeStartIndices at h
  cases hf : get_first_initialized_tick_array pool ext zero_for_one with
  | error e => rw [hf] at h; cases h
  | ok p =>
    rw [hf] at h
    cases h
    exact ⟨p.1, p.2, rfl, rfl⟩

theorem routeStartIndices_length_le {pool : PoolState} {ext : TickArrayBitmapExtension}
    {zero_for_one : Bool} {starts : List Int}
    (h : routeStartIndices pool ext zero_for_one = .ok starts) : starts.length ≤ 6 := by
  obtain ⟨flag, first, hf, hs⟩ := routeStartIndices_ok h
  subst hs
  have := collectNextStartIndices_length_le pool ext zero_for_one 5 first
  simp only [List.length_cons]
  omega

/-- The two routing functions run the same walk, derivations, fetch and
decode: either both panic with the same error, or both succeed — the keys
variant with the derived key list, the other with the decoded accounts
fetched at exactly those keys. -/
theorem load_variants_cases (fetch : Pubkey → Option Bytes) (layout : AccountLayout)
    (cfg : ClientConfig) (pool : PoolState) (ext : TickArrayBitmapExtension)
    (zero_for_one : Bool) :
    (∃ e,
      load_cur_and_next_five_tick_array_keys fetch layout cfg pool ext zero_for_one =
        .panicked e ∧
      load_cur_and_next_five_tick_array fetch layout cfg pool ext zero_for_one =
        .panicked e) ∨
    (∃ starts pool_id arrs,
      routeStartIndices pool ext zero_for_one = .ok starts ∧
      cfg.pool_id_account = some pool_id ∧
      load_cur_and_next_five_tick_array_keys fetch layout cfg pool ext zero_for_one =
        .ok (starts.map (tick_array_address cfg.raydium_v3_program pool_id)) ∧
      decodeAll fetch layout
        (starts.map (tick_array_address cfg.raydium_v3_program pool_id)) = .ok arrs ∧
      load_cur_and_next_five_tick_array fetch layout cfg pool ext zero_for_one =
        .ok arrs) := by
  unfold load_cur_and_next_five_tick_array load_cur_and_next_five_tick_array_keys
  cases hr : routeStartIndices pool ext zero_for_one with
  | error e => exact Or.inl ⟨e, rfl, rfl⟩
  | ok starts =>
    cases hp : cfg.pool_id_account with
    | none => exact Or.inl ⟨.missingPoolId, rfl, rfl⟩
    | some pool_id =>
      cases hd : decodeAll fetch layout
          (starts.map (tick_array_address cfg.raydium_v3_program pool_id)) with
      | error e => exact Or.inl ⟨e, by simp only [hd], by simp only [hd]⟩
      | ok arrs =>
        exact Or.inr ⟨starts, pool_id, arrs, rfl, rfl, by simp only [hd], hd,
          by simp only [hd]⟩

/-! ## Concrete inputs for the scenario and the witnesses -/

/-- The spec §8 scenario pool: `tick_spacing = 10`, current tick `1234`,
exactly the tick arrays at start indices 600 and 1200 initialized (both
in the inline bitmap; the extension is empty). -/
def scenarioPool : PoolState :=
  { tick_current := 1234, tick_spacing := 10, tick_array_bitmap := [600, 1200] }

/-- An extension bitmap marking nothing initialized. -/
def emptyExtension : TickArrayBitmapExtension :=
  { positive_tick_array_bitmap := [], negative_tick_array_bitmap := [] }

/-- A concrete client config with a pool: the output of `load_cfg` for
program id `[7]`, config index 0 and mints `[1]`, `[2]`. -/
def scenarioConfig : ClientConfig :=
  load_cfg "h" "w" "p" "a" [7] 0 (some [1]) (some [2])

/-- A one-byte discriminator, zero-length fixed layout: every fetched
buffer tagged `[3]` decodes. -/
def scenarioLayout : AccountLayout := { discriminator := [3], fixedSize := 0 }

/-- An account map holding a decodable buffer at every address. -/
def scenarioFetch : Pubkey → Option Bytes := fun _ => some [3]

/-- A pool whose bitmaps mark no tick array initialized. -/
def emptyPool : PoolState :=
  { tick_current := 1234, tick_spacing := 10, tick_array_bitmap := [] }

/-! ## The claims -/

/-- C1: for every pool state, bitmap extension and swap direction, the
tick-array routing operation (either variant) returns a sequence of at
most 6 tick-array addresses: the first initialized array plus up to 5
lookahead arrays. -/
theorem tick_array_route_at_most_six (fetch : Pubkey → Option Bytes)
    (layout : AccountLayout) (cfg : ClientConfig) (pool : PoolState)
    (ext : TickArrayBitmapExtension) (zero_for_one : Bool) :
    (∀ keys,
      load_cur_and_next_five_tick_array_keys fetch layout cfg pool ext zero_for_one =
        .ok keys → keys.length ≤ 6) ∧
    (∀ arrs,
      load_cur_and_next_five_tick_array fetch layout cfg pool ext zero_for_one =
        .ok arrs → arrs.length ≤ 6) := by
  rcases load_variants_cases fetch layout cfg pool ext zero_for_one with
    ⟨e, hk, ha⟩ | ⟨starts, pool_id, arrs0, hr, hp, hk, hd, ha⟩
  · constructor
    · intro keys h; rw [hk] at h; cases h
    · intro arrs h; rw [ha] at h; cases h
  · have hlen := routeStartIndices_length_le hr
    constructor
    · intro keys h
      rw [hk] at h
      injection h with h
      subst h
      simpa using hlen
    · intro arrs h
      rw [ha] at h
      injection h with h
      subst h
      have h1 := decodeAll_length hd
      simp only [List.length_map] at h1
      omega

theorem tick_array_route_at_most_six_witness :
    ([tick_array_address scenarioConfig.raydium_v3_program
        (scenarioConfig.pool_id_account.getD []) 1200] : List Pubkey).length ≤ 6 :=
  (tick_array_route_at_most_six scenarioFetch scenarioLayout scenarioConfig scenarioPool
    emptyExtension false).1 _ (by decide)

/-- C2: the start-index sequence a routing call collects is strictly
monotonic in the trade direction — strictly decreasing when
`zero_for_one`, strictly increasing otherwise. -/
theorem route_start_indices_strictly_monotonic (pool : PoolState)
    (ext : TickArrayBitmapExtension) (zero_for_one : Bool) (starts : List Int)
    (h : routeStartIndices pool ext zero_for_one = .ok starts) :
    (zero_for_one = true → starts.Pairwise (fun a b => b < a)) ∧
    (zero_for_one = false → starts.Pairwise (fun a b => a < b)) := by
  obtain ⟨flag, first, hf, hs⟩ := routeStartIndices_ok h
  subst hs
  constructor
  · intro hz
    subst hz
    haveI : IsTrans Int (fun a b : Int => b < a) := ⟨fun a b c h1 h2 => lt_trans h2 h1⟩
    refine List.chain_iff_pairwise.mp ?_
    have hc := collectNextStartIndices_chain pool ext true 5 first
    simpa using hc
  · intro hz
    subst hz
    haveI : IsTrans Int (fun a b : Int => a < b) := ⟨fun a b c h1 h2 => lt_trans h1 h2⟩
    refine List.chain_iff_pairwise.mp ?_
    have hc := collectNextStartIndices_chain pool ext false 5 first
    simpa using hc

theorem route_start_indices_strictly_monotonic_witness :
    (true = true → List.Pairwise (fun a b : Int => b < a) [1200, 600]) ∧
    (true = false → List.Pairwise (fun a b : Int => a < b) [1200, 600]) :=
  route_start_indices_strictly_monotonic scenarioPool emptyExtension true [1200, 600] rfl

/-- C3 (counterexample to the claim as stated): at a concrete pool whose
bitmaps mark no tick array initialized, the routing operation's outcome
is a panic — the Rust `unwrap` of the failed search aborts the process —
carrying `NoInitializedTickArrayError`; the claim that the operation does
not panic and surfaces the error to the caller as a returned error kind
is false on this code (its Rust return type has no error channel at
all). -/
theorem router_no_route_panics_counterexample :
    load_cur_and_next_five_tick_array scenarioFetch scenarioLayout scenarioConfig
      emptyPool emptyExtension true =
      Outcome.panicked RouterError.noInitializedTickArray := by decide

/-- C3 (amended): if neither the pool's inline bitmap nor the bitmap
extension contains an initialized tick array in the search direction —
the spec-modelled search fails with `NoInitializedTickArrayError` — then
both routing operations abort by panicking on that specific error: they
do not silently recover and return no result, but the error reaches the
caller only inside the panic, not as a returned error value. -/
theorem router_no_route_aborts_with_error (fetch : Pubkey → Option Bytes)
    (layout : AccountLayout) (cfg : ClientConfig) (pool : PoolState)
    (ext : TickArrayBitmapExtension) (zero_for_one : Bool)
    (h : get_first_initialized_tick_array pool ext zero_for_one =
      .error .noInitializedTickArray) :
    load_cur_and_next_five_tick_array fetch layout cfg pool ext zero_for_one =
      .panicked .noInitializedTickArray ∧
    load_cur_and_next_five_tick_array_keys fetch layout cfg pool ext zero_for_one =
      .panicked .noInitializedTickArray := by
  have hr : routeStartIndices pool ext zero_for_one = .error .noInitializedTickArray := by
    unfold routeStartIndices
    rw [h]
  unfold load_cur_and_next_five_tick_array load_cur_and_next_five_tick_array_keys
  simp [hr]

theorem router_no_route_aborts_with_error_witness :
    load_cur_and_next_five_tick_array scenarioFetch scenarioLayout scenarioConfig
      emptyPool emptyExtension false =
      Outcome.panicked RouterError.noInitializedTickArray ∧
    load_cur_and_next_five_tick_array_keys scenarioFetch scenarioLayout scenarioConfig
      emptyPool emptyExtension false =
      Outcome.panicked RouterError.noInitializedTickArray :=
  router_no_route_aborts_with_error scenarioFetch scenarioLayout scenarioConfig
    emptyPool emptyExtension false rfl

/-- C4: pool-address resolution is commutative in the mint pair — the
pair is canonicalized (swapped when `mint0 > mint1`) before the pool
derivation, so `load_cfg` resolves the same pool address for `(a, b)`
and `(b, a)`. -/
theorem resolve_pool_commutative (hu wu pp ap : String) (prog : Pubkey) (idx : Nat)
    (a b : Pubkey) :
    (load_cfg hu wu pp ap prog idx (some a) (some b)).pool_id_account =
      (load_cfg hu wu pp ap prog idx (some b) (some a)).pool_id_account := by
  simp only [load_cfg]
  by_cases h1 : bytesLt b a
  · have h2 : bytesLt a b = false := bytesLt_asymm b a h1
    simp [h1, h2]
  · by_cases h2 : bytesLt a b
    · have h3 : bytesLt b a = false := bytesLt_asymm a b h2
      simp [h2, h3]
    · have hab : a = b :=
        bytesLt_total_eq a b (by simpa using h2) (by simpa using h1)
      subst hab
      rfl

/-- C5: every address a successful routing call returns equals
`derive(program_id, ["tick_array", pool_address, big_endian(start_index)])`
for the start index at the same position of the collected sequence. -/
theorem tick_array_keys_derivation_consistency (fetch : Pubkey → Option Bytes)
    (layout : AccountLayout) (cfg : ClientConfig) (pool : PoolState)
    (ext : TickArrayBitmapExtension) (zero_for_one : Bool)
    (keys : List Pubkey) (starts : List Int) (pool_id : Pubkey)
    (hp : cfg.pool_id_account = some pool_id)
    (hk : load_cur_and_next_five_tick_array_keys fetch layout cfg pool ext zero_for_one =
      .ok keys)
    (hs : routeStartIndices pool ext zero_for_one = .ok starts) :
    keys = starts.map (fun start_index =>
      (find_program_address [TICK_ARRAY_SEED, pool_id, i32_to_be_bytes start_index]
        cfg.raydium_v3_program).1) := by
  rcases load_variants_cases fetch layout cfg pool ext zero_for_one with
    ⟨e, hk2, _⟩ | ⟨starts2, pid2, arrs, hr2, hp2, hk2, _, _⟩
  · rw [hk2] at hk; cases hk
  · rw [hk2] at hk
    injection hk with hk
    subst hk
    rw [hr2] at hs
    injection hs with hs
    subst hs
    rw [hp2] at hp
    injection hp with hp
    subst hp
    rfl

theorem tick_array_keys_derivation_consistency_witness :
    [tick_array_address scenarioConfig.raydium_v3_program
      (scenarioConfig.pool_id_account.getD []) 1200] =
      ([1200] : List Int).map (fun start_index =>
        (find_program_address
          [TICK_ARRAY_SEED, scenarioConfig.pool_id_account.getD [],
            i32_to_be_bytes start_index] scenarioConfig.raydium_v3_program).1) :=
  tick_array_keys_derivation_consistency scenarioFetch scenarioLayout scenarioConfig
    scenarioPool emptyExtension false
    [tick_array_address scenarioConfig.raydium_v3_program
      (scenarioConfig.pool_id_account.getD []) 1200]
    [1200] (scenarioConfig.pool_id_account.getD []) rfl (by decide) rfl

/-- C6: against the scenario pool (`tick_spacing = 10`, 60 ticks per
array, current tick 1234, exactly the arrays at 600 and 1200
initialized), a routing call with `zero_for_one = false` returns exactly
the one address for start index 1200, stopping early instead of raising
`NoInitializedTickArrayError`; and in general, whenever no next
initialized start index exists in the trade direction the loop stops and
the partial route already collected is returned as valid. -/
theorem router_scenario_partial_route :
    load_cur_and_next_five_tick_array_keys scenarioFetch scenarioLayout scenarioConfig
      scenarioPool emptyExtension false =
      .ok [tick_array_address scenarioConfig.raydium_v3_program
            (scenarioConfig.pool_id_account.getD []) 1200] ∧
    (∀ (pool : PoolState) (ext : TickArrayBitmapExtension) (cur : Int)
        (zero_for_one : Bool) (fuel : Nat),
      next_initialized_tick_array_start_index pool ext cur zero_for_one = none →
      collectNextStartIndices pool ext cur zero_for_one fuel = []) := by
  constructor
  · decide
  · intro pool ext cur zero_for_one fuel h
    cases fuel with
    | zero => rfl
    | succ n => simp [collectNextStartIndices, h]

theorem router_scenario_partial_route_witness :
    collectNextStartIndices scenarioPool emptyExtension 1200 false 5 = [] :=
  router_scenario_partial_route.2 scenarioPool emptyExtension 1200 false 5 rfl

/-- C7: decoding a raw account buffer that carries the requested type's
discriminator tag but whose remaining bytes are shorter than the type's
fixed layout fails with `TruncatedDataError`; the decoder is a total
function returning that specific error, so it neither panics nor returns
a (zeroed or any other) decoded value for such a buffer. -/
theorem deserialize_truncated_buffer (layout : AccountLayout) (raw : Bytes)
    (htag : raw.take layout.discriminator.length = layout.discriminator)
    (hshort : (raw.drop layout.discriminator.length).length < layout.fixedSize) :
    deserialize_anchor_account layout raw = .error .truncatedData ∧
    ∀ body, deserialize_anchor_account layout raw ≠ .ok body := by
  unfold deserialize_anchor_account
  rw [if_pos htag, if_pos hshort]
  exact ⟨rfl, fun body h => by cases h⟩

theorem deserialize_truncated_buffer_witness :
    deserialize_anchor_account { discriminator := [9], fixedSize := 3 } [9, 1] =
      .error .truncatedData ∧
    deserialize_anchor_account { discriminator := [9], fixedSize := 3 } [9, 1] ≠
      .ok [1] :=
  ⟨(deserialize_truncated_buffer { discriminator := [9], fixedSize := 3 } [9, 1]
      rfl (by decide)).1,
   (deserialize_truncated_buffer { discriminator := [9], fixedSize := 3 } [9, 1]
      rfl (by decide)).2 [1]⟩

/-- C8: the two routing variants are equivalent on identical inputs —
whenever both succeed, the tick-array states the first variant returns
are exactly the decoded accounts fetched at the key list the second
variant returns, in the same order; and one succeeds exactly when the
other does (neither can panic while the other returns normally). -/
theorem routing_variants_equivalent (fetch : Pubkey → Option Bytes)
    (layout : AccountLayout) (cfg : ClientConfig) (pool : PoolState)
    (ext : TickArrayBitmapExtension) (zero_for_one : Bool) :
    (∀ keys arrs,
      load_cur_and_next_five_tick_array_keys fetch layout cfg pool ext zero_for_one =
        .ok keys →
      load_cur_and_next_five_tick_array fetch layout cfg pool ext zero_for_one =
        .ok arrs →
      decodeAll fetch layout keys = .ok arrs) ∧
    (∀ keys e,
      load_cur_and_next_five_tick_array_keys fetch layout cfg pool ext zero_for_one =
        .ok keys →
      load_cur_and_next_five_tick_array fetch layout cfg pool ext zero_for_one ≠
        .panicked e) ∧
    (∀ arrs e,
      load_cur_and_next_five_tick_array fetch layout cfg pool ext zero_for_one =
        .ok arrs →
      load_cur_and_next_five_tick_array_keys fetch layout cfg pool ext zero_for_one ≠
        .panicked e) := by
  rcases load_variants_cases fetch layout cfg pool ext zero_for_one with
    ⟨e0, hk, ha⟩ | ⟨starts, pool_id, arrs0, hr, hp, hk, hd, ha⟩
  · refine ⟨?_, ?_, ?_⟩
    · intro keys arrs h1 h2; rw [hk] at h1; cases h1
    · intro keys e h1; rw [hk] at h1; cases h1
    · intro arrs e h1; rw [ha] at h1; cases h1
  · refine ⟨?_, ?_, ?_⟩
    · intro keys arrs h1 h2
      rw [hk] at h1
      injection h1 with h1
      subst h1
      rw [ha] at h2
      injection h2 with h2
      subst h2
      exact hd
    · intro keys e h1 h2
      rw [ha] at h2
      cases h2
    · intro arrs e h1 h2
      rw [hk] at h2
      cases h2

theorem routing_variants_equivalent_witness :
    decodeAll scenarioFetch scenarioLayout
      [tick_array_address scenarioConfig.raydium_v3_program
        (scenarioConfig.pool_id_account.getD []) 1200] = .ok [[]] :=
  (routing_variants_equivalent scenarioFetch scenarioLayout scenarioConfig scenarioPool
    emptyExtension false).1 _ _ (by decide) (by decide)

/-- C9: every config `load_cfg` produces satisfies the invariant — a pool
address exists exactly when both mints were supplied, the bitmap
extension address exists exactly when the pool address does, and when
both output mints are present, `mint0 ≤ mint1` in byte order. -/
theorem load_cfg_invariant (hu wu pp ap : String) (prog : Pubkey) (idx : Nat)
    (mint0_in mint1_in : Option Pubkey) :
    ((load_cfg hu wu pp ap prog idx mint0_in mint1_in).pool_id_account.isSome =
      (mint0_in.isSome && mint1_in.isSome)) ∧
    ((load_cfg hu wu pp ap prog idx mint0_in mint1_in).tickarray_bitmap_extension.isSome =
      (load_cfg hu wu pp ap prog idx mint0_in mint1_in).pool_id_account.isSome) ∧
    (∀ m0 m1,
      (load_cfg hu wu pp ap prog idx mint0_in mint1_in).mint0 = some m0 →
      (load_cfg hu wu pp ap prog idx mint0_in mint1_in).mint1 = some m1 →
      bytesLt m1 m0 = false) := by
  cases mint0_in with
  | none =>
    cases mint1_in with
    | none => exact ⟨rfl, rfl, fun m0 m1 h0 h1 => by cases h0⟩
    | some b => exact ⟨rfl, rfl, fun m0 m1 h0 h1 => by cases h0⟩
  | some a =>
    cases mint1_in with
    | none => exact ⟨rfl, rfl, fun m0 m1 h0 h1 => by cases h1⟩
    | some b =>
      refine ⟨by simp [load_cfg], by simp [load_cfg], ?_⟩
      intro m0 m1 h0 h1
      simp only [load_cfg] at h0 h1
      by_cases hba : bytesLt b a
      · simp only [hba, if_pos] at h0 h1
        injection h0 with h0
        injection h1 with h1
        subst h0
        subst h1
        exact bytesLt_asymm b a hba
      · simp only [hba] at h0 h1
        injection h0 with h0
        injection h1 with h1
        subst h0
        subst h1
        simpa using hba

theorem load_cfg_invariant_witness :
    ((load_cfg "h" "w" "p" "a" [7] 0 (some [1]) (some [0])).pool_id_account.isSome =
      ((some [1] : Option Pubkey).isSome && (some [0] : Option Pubkey).isSome)) ∧
    bytesLt [1] [0] = false :=
  ⟨(load_cfg_invariant "h" "w" "p" "a" [7] 0 (some [1]) (some [0])).1,
   (load_cfg_invariant "h" "w" "p" "a" [7] 0 (some [1]) (some [0])).2.2 [0] [1] rfl rfl⟩

/-- C10: when the two configured mints are byte-for-byte equal, `load_cfg`
does not reject the pair: the strict comparison `mint0 > mint1` is false,
so no swap occurs, both output mints carry the same key, and a pool
address is still derived with that key as both mint seeds. -/
theorem load_cfg_equal_mints (hu wu pp ap : String) (prog : Pubkey) (idx : Nat)
    (m : Pubkey) :
    (load_cfg hu wu pp ap prog idx (some m) (some m)).mint0 = some m ∧
    (load_cfg hu wu pp ap prog idx (some m) (some m)).mint1 = some m ∧
    (load_cfg hu wu pp ap prog idx (some m) (some m)).pool_id_account =
      some (find_program_address [POOL_SEED,
        (find_program_address [AMM_CONFIG_SEED, u16_to_be_bytes idx] prog).1, m, m]
        prog).1 := by
  simp [load_cfg, bytesLt_irrefl]
